import Mathlib

attribute [local semireducible] Rat.add Rat.mul Rat.inv Rat.sub Rat.ofScientific

/-!
Verification of the leaflet map-controller core: a shallow embedding of
`src/components/useMap.tsx` (layer registry, route-drawing state machine,
distance annotation) and of `HandleInputFile` (coordinate/filename parsing),
with theorems settling the specification claims.

JavaScript numbers that flow through the parsing pipeline are modelled as
`JSNum`: a finite rational, a signed infinity, or NaN, matching the values
`parseFloat` can produce.  Floating-point rounding is not modelled; all
finite arithmetic is exact over `ℚ`.
-/

/-- A JavaScript number as produced by `parseFloat`: a finite value
(modelled exactly as a rational), a signed infinity, or NaN. -/
inductive JSNum where
  | fin (q : ℚ)
  | inf (pos : Bool)
  | nan
deriving DecidableEq, Repr

/-- JavaScript `isNaN` on a `JSNum`. -/
def JSNum.isNaN : JSNum → Bool
  | .nan => true
  | _ => false

/-- Characters treated as whitespace by JavaScript `trim`, the `\s` regex
class, and the leading-whitespace skip of `parseFloat` (ASCII subset). -/
def isWsCh (c : Char) : Bool :=
  c = ' ' || c = '\t' || c = '\n' || c = '\r' || c = Char.ofNat 11 || c = Char.ofNat 12

/-- Numeric value of a decimal digit character. -/
def digitVal (c : Char) : ℕ := c.toNat - '0'.toNat

/-- Value of a list of decimal digit characters, most significant first. -/
def natOfDigits (ds : List Char) : ℕ := ds.foldl (fun a c => 10 * a + digitVal c) 0

/-- Does the character list start with the literal `Infinity`
(accepted by `parseFloat`)? -/
def isInfinityPfx : List Char → Bool
  | 'I' :: 'n' :: 'f' :: 'i' :: 'n' :: 'i' :: 't' :: 'y' :: _ => true
  | _ => false

/-- Parse an optional exponent part (`e`/`E`, optional sign, digits) at the
head of the input, as the longest-valid-prefix rule of `parseFloat` does:
an `e` not followed by digits is not consumed. -/
def parseExp (cs : List Char) : Option ℤ :=
  match cs with
  | c :: rest =>
    if c = 'e' || c = 'E' then
      let signAndRest : Bool × List Char :=
        match rest with
        | '+' :: r => (false, r)
        | '-' :: r => (true, r)
        | r => (false, r)
      let eds := signAndRest.2.takeWhile Char.isDigit
      if eds.isEmpty then none
      else some (if signAndRest.1 then -(natOfDigits eds : ℤ) else (natOfDigits eds : ℤ))
    else none
  | [] => none

/-- Magnitude of a JS decimal literal: finite or infinite. -/
inductive Mag where
  | finM (q : ℚ)
  | infM

/-- Parse the unsigned part of a JS decimal literal at the head of the
input, following ECMA `parseFloat`: `Infinity`, or decimal digits with an
optional fraction and an optional exponent; the longest valid prefix is
used and `none` is returned when no prefix is a valid literal. -/
def parseMag (cs : List Char) : Option Mag :=
  if isInfinityPfx cs then some .infM
  else
    let ids := cs.takeWhile Char.isDigit
    let rest := cs.dropWhile Char.isDigit
    let fracAndRest : List Char × List Char :=
      match rest with
      | '.' :: r => (r.takeWhile Char.isDigit, r.dropWhile Char.isDigit)
      | _ => ([], rest)
    let fds := fracAndRest.1
    if ids.isEmpty && fds.isEmpty then none
    else
      let mant : ℚ := (natOfDigits ids : ℚ) + (natOfDigits fds : ℚ) / (10 : ℚ) ^ fds.length
      match parseExp fracAndRest.2 with
      | some e => some (.finM (mant * (10 : ℚ) ^ e))
      | none => some (.finM mant)

/-- ECMA `parseFloat` on a character list: skip leading whitespace, read an
optional sign, then the longest valid decimal-literal prefix; `NaN` when
none exists. -/
def jsParseFloatL (s : List Char) : JSNum :=
  let cs := s.dropWhile isWsCh
  let signAndRest : Bool × List Char :=
    match cs with
    | '-' :: r => (true, r)
    | '+' :: r => (false, r)
    | r => (false, r)
  match parseMag signAndRest.2 with
  | some .infM => .inf (!signAndRest.1)
  | some (.finM q) => .fin (if signAndRest.1 then -q else q)
  | none => .nan

/-- JavaScript `parseFloat` on a string. -/
def jsParseFloat (s : String) : JSNum := jsParseFloatL s.data

/-- JavaScript `String.prototype.trim`: drop whitespace from both ends. -/
def jsTrim (s : List Char) : List Char :=
  ((s.dropWhile isWsCh).reverse.dropWhile isWsCh).reverse

/-- JavaScript `split(/\r?\n/)`: cut the text at every `\r\n` or `\n`
occurrence (a lone `\r` is not a separator); empty pieces are kept. -/
def splitLinesL : List Char → List (List Char)
  | '\r' :: '\n' :: rest => [] :: splitLinesL rest
  | '\n' :: rest => [] :: splitLinesL rest
  | c :: rest =>
    match splitLinesL rest with
    | l :: ls => (c :: l) :: ls
    | [] => [[c]]
  | [] => [[]]

/-- JavaScript `split(/\s+/)` while scanning inside a token: accumulate
until whitespace, then emit the token and skip the whitespace run. -/
def splitWsAux : List Char → List Char → List (List Char)
  | [], cur => [cur.reverse]
  | c :: rest, cur =>
    if isWsCh c then cur.reverse :: splitWsSkip rest
    else splitWsAux rest (c :: cur)
where
  /-- Skip the remainder of a whitespace run, then start the next token. -/
  splitWsSkip : List Char → List (List Char)
  | [] => [[]]
  | c :: rest => if isWsCh c then splitWsSkip rest else splitWsAux rest [c]

/-- JavaScript `split(/\s+/)`: maximal whitespace runs separate the
tokens; a leading or trailing run contributes an empty token. -/
def splitWsL (s : List Char) : List (List Char) := splitWsAux s []

/-- A `L.latLng` value as constructed by the parsing pipeline; the
components are the `parseFloat` outputs (never NaN once constructed, but
possibly infinite — Leaflet's constructor only rejects NaN). -/
structure LatLngJ where
  lat : JSNum
  lng : JSNum
deriving DecidableEq, Repr

/-- A `L.latLngBounds` value built from the four filename tokens. -/
structure BoundsJ where
  southwest : LatLngJ
  northeast : LatLngJ
deriving DecidableEq, Repr

/-- One line of the coordinate body, as `HandleInputFile` maps it:
`line.split(/\s+/).map(parseFloat)`, destructure the first two entries
(a missing entry behaves like NaN under `isNaN`), keep the point when
neither is NaN. -/
def lineToCoord (line : List Char) : Option LatLngJ :=
  let nums := (splitWsL line).map jsParseFloatL
  match nums.get? 0, nums.get? 1 with
  | some a, some b => if a.isNaN || b.isNaN then none else some ⟨a, b⟩
  | _, _ => none

/-- Body parsing of `HandleInputFile`: split the text on line breaks, trim
each line, drop blank lines, convert each remaining line with
`lineToCoord`, and drop the failures. -/
def parseBody (text : String) : List LatLngJ :=
  (((splitLinesL text.data).map jsTrim).filter
      (fun l => decide (0 < l.length))).filterMap lineToCoord

/-- The stem of a filename, per the source regex replace
`name.replace(/\.[^\/.]+$/, "")`: remove the final dot segment when it is
nonempty and free of `.` and `/`; otherwise leave the name unchanged. -/
def stripExt (cs : List Char) : List Char :=
  let rev := cs.reverse
  let pre := rev.takeWhile (fun c => c != '.' && c != '/')
  let rest := rev.dropWhile (fun c => c != '.' && c != '/')
  match rest with
  | '.' :: r => if pre.isEmpty then cs else r.reverse
  | _ => cs

/-- Filename bounds extraction of `HandleInputFile`: strip the extension,
split the stem on `_`, `parseFloat` every token, destructure the first
four (missing entries behave like NaN), and build the bounds exactly when
none of the four is NaN. -/
def filenameBounds (fname : String) : Option BoundsJ :=
  let nums := ((stripExt fname.data).splitOn '_').map jsParseFloatL
  match nums.get? 0, nums.get? 1, nums.get? 2, nums.get? 3 with
  | some a, some b, some c, some d =>
    if a.isNaN || b.isNaN || c.isNaN || d.isNaN then none
    else some ⟨⟨a, b⟩, ⟨c, d⟩⟩
  | _, _, _, _ => none

/-- Model of `HandleInputFile` at the level the claims observe: the filename bounds
are computed when an overlay callback was supplied; the body text result
is `none` when reading the file's text failed (the `catch` branch), in
which case the returned point list is empty. -/
def handleInputFile (hasOverlay : Bool) (fname : String) (textRes : Option String) :
    Option BoundsJ × List LatLngJ :=
  let b := if hasOverlay then filenameBounds fname else none
  match textRes with
  | some t => (b, parseBody t)
  | none => (b, [])

/-- Body parsing as the claim words it: a line is kept exactly when its
first two whitespace-separated tokens both parse as finite numbers. -/
def specLineToCoord (line : List Char) : Option LatLngJ :=
  match (splitWsL line).map jsParseFloatL with
  | .fin a :: .fin b :: _ => some ⟨.fin a, .fin b⟩
  | _ => none

/-- The claim's body-parsing pipeline, differing from the source only in
demanding finite parses per line. -/
def specParseBody (text : String) : List LatLngJ :=
  (((splitLinesL text.data).map jsTrim).filter
      (fun l => decide (0 < l.length))).filterMap specLineToCoord

/-- Body parsing as amended: same pipeline, but a line is kept exactly
when its first two tokens parse to non-NaN numbers (infinities allowed),
written as a single fold over the trimmed lines. -/
def amendedBody (text : String) : List LatLngJ :=
  ((splitLinesL text.data).map jsTrim).foldr
    (fun line acc =>
      if line.isEmpty then acc
      else
        match (splitWsL line).map jsParseFloatL with
        | a :: b :: _ => if !a.isNaN && !b.isNaN then ⟨a, b⟩ :: acc else acc
        | _ => acc) []

/-- Filename bounds as the claim words them: emitted exactly when the stem
splits into exactly four tokens that all parse as finite floats. -/
def specBoundsStrict (fname : String) : Option BoundsJ :=
  match ((stripExt fname.data).splitOn '_').map jsParseFloatL with
  | [.fin a, .fin b, .fin c, .fin d] =>
    some ⟨⟨.fin a, .fin b⟩, ⟨.fin c, .fin d⟩⟩
  | _ => none

/-- Filename bounds as amended: emitted exactly when the stem has at least
four underscore-separated tokens whose first four all parse to non-NaN
numbers; extra tokens are ignored. -/
def amendedBounds (fname : String) : Option BoundsJ :=
  match ((stripExt fname.data).splitOn '_').map jsParseFloatL with
  | a :: b :: c :: d :: _ =>
    if a.isNaN || b.isNaN || c.isNaN || d.isNaN then none
    else some ⟨⟨a, b⟩, ⟨c, d⟩⟩
  | _ => none

/-- Two-digit zero-padding for the cents part of `toFixed(2)`. -/
def pad2 (n : ℕ) : String := if n < 10 then "0" ++ toString n else toString n

/-- Absolute value of a rational, spelled out. -/
def absQ (q : ℚ) : ℚ := if q < 0 then -q else q

/-- Floor of a nonnegative rational (numerator over denominator with
truncating integer division, which is the floor when the argument is
nonnegative — the only way `toFixed2` uses it). -/
def floorNN (x : ℚ) : ℤ := x.num / x.den

/-- ECMA `Number.prototype.toFixed(2)` on an exact rational: take the
sign, round the magnitude to the nearest hundredth (ties away from zero),
and print with exactly two decimal places. -/
def toFixed2 (q : ℚ) : String :=
  let sgn := if q < 0 then "-" else ""
  let n : ℤ := floorNN (absQ q * 100 + 1 / 2)
  sgn ++ toString (n.toNat / 100) ++ "." ++ pad2 (n.toNat % 100)

/-- A geographic point handled by the route machinery (`L.LatLng` with
finite coordinates, modelled exactly over `ℚ`). -/
structure Pt where
  lat : ℚ
  lng : ℚ
deriving DecidableEq, Repr, Inhabited

/-- One distance label produced by `addDistanceTooltips`: the computed
nautical-mile value `p1.distanceTo(p2) / 1852`, the marker anchor at the
arithmetic midpoint, and the rendered text of the label's span. -/
structure DistLabel where
  value : ℚ
  anchor : Pt
  text : String
deriving DecidableEq, Repr, Inhabited

/-- The label built for one consecutive pair inside the
`addDistanceTooltips` loop; `dist` abstracts the map engine's
`LatLng.distanceTo` (great-circle distance in meters). -/
def distLabel (dist : Pt → Pt → ℚ) (p1 p2 : Pt) : DistLabel :=
  let distanceNM := dist p1 p2 / 1852
  { value := distanceNM
    anchor := ⟨(p1.lat + p2.lat) / 2, (p1.lng + p2.lng) / 2⟩
    text := toFixed2 distanceNM ++ " NM" }

/-- The `addDistanceTooltips` loop (`for i in 0 .. points.length - 2`):
one label per consecutive pair of the point list, in order. -/
def distTooltips (dist : Pt → Pt → ℚ) : List Pt → List DistLabel
  | p1 :: p2 :: rest => distLabel dist p1 p2 :: distTooltips dist (p2 :: rest)
  | _ => []

/-- A drawable element inside a feature group. -/
inductive Elem where
  | polylineE (pts : List Pt)
  | markerE (p : Pt)
  | distLabelE (lab : DistLabel)
  | tempPolylineE (pts : List Pt)
deriving DecidableEq, Repr

/-- The observable state of the `useMap` hook: map presence, the ids of
the groups currently added to the map (`map.hasLayer`), the `layers`
React state (registry), the contents of every created feature group, the
route-drawing flags and refs, the subscribed click-listener ids, the map
container cursor, and a fresh-id counter for new groups and handlers. -/
structure MapState where
  mapPresent : Bool
  mapLayers : List ℕ
  layers : List ℕ
  groups : List (ℕ × List Elem)
  isDrawingRoute : Bool
  routePoints : List Pt
  tempRouteLayer : Option ℕ
  clickHandler : Option ℕ
  listeners : List ℕ
  cursor : String
  nextId : ℕ
deriving DecidableEq, Repr

/-- Model of `createLayer`: build a feature group from the elements, append it to
the `layers` registry state, and return it (as a fresh id). -/
def createLayer (elements : List Elem) (s : MapState) : ℕ × MapState :=
  let id := s.nextId
  (id, { s with groups := s.groups ++ [(id, elements)],
                layers := s.layers ++ [id],
                nextId := id + 1 })

/-- Model of `group.addLayer` repeated: append elements to the group with the given
id. -/
def groupAppend (id : ℕ) (es : List Elem) (gs : List (ℕ × List Elem)) :
    List (ℕ × List Elem) :=
  gs.map (fun g => if g.1 = id then (g.1, g.2 ++ es) else g)

/-- Model of `addPolyline`: create a group holding the polyline, then run
`addDistanceTooltips` on it, attaching one label per consecutive pair. -/
def addPolyline (dist : Pt → Pt → ℚ) (pts : List Pt) (s : MapState) : ℕ × MapState :=
  let idAndS := createLayer [Elem.polylineE pts] s
  let labs := (distTooltips dist pts).map Elem.distLabelE
  (idAndS.1, { idAndS.2 with groups := groupAppend idAndS.1 labs idAndS.2.groups })

/-- Model of `cleanupRouteDrawing`: unsubscribe the ref'd click listener (when
present), restore the default cursor, and remove the temporary route
layer from the map (when present), nulling both refs. -/
def cleanupRouteDrawing (s : MapState) : MapState :=
  let ls :=
    match s.clickHandler with
    | some h => s.listeners.erase h
    | none => s.listeners
  let ml :=
    match s.tempRouteLayer with
    | some t => s.mapLayers.erase t
    | none => s.mapLayers
  { s with listeners := ls, clickHandler := none, cursor := "",
           mapLayers := ml, tempRouteLayer := none }

/-- Model of `cancelDrawingRoute`: no-op without a map; otherwise clean up the
drawing machinery and reset the session to idle with no points. -/
def cancelDrawingRoute (s : MapState) : MapState :=
  if !s.mapPresent then s
  else { cleanupRouteDrawing s with isDrawingRoute := false, routePoints := [] }

/-- Model of `toggleFromMap`: no-op without a map; if the layer is on the map,
remove it, filter it out of the `layers` registry, and — whenever a
drawing session is in progress — cancel that session; otherwise add the
layer to the map (and fit bounds, which carries no modelled state). -/
def toggleFromMap (layer : ℕ) (s : MapState) : MapState :=
  if !s.mapPresent then s
  else if layer ∈ s.mapLayers then
    let s1 := { s with mapLayers := s.mapLayers.erase layer,
                       layers := s.layers.filter (fun l => l != layer) }
    if s1.isDrawingRoute then cancelDrawingRoute s1 else s1
  else
    { s with mapLayers := s.mapLayers ++ [layer] }

/-- Model of `updateTempRoute`: remove the previous preview from the map, then — if
any points remain — build a fresh preview group with one marker per point
plus a dashed polyline once two points exist, add it to the map, and
remember it in the ref. -/
def updateTempRoute (pts : List Pt) (s : MapState) : MapState :=
  if !s.mapPresent then s
  else
    let ml :=
      match s.tempRouteLayer with
      | some t => s.mapLayers.erase t
      | none => s.mapLayers
    if pts.isEmpty then { s with mapLayers := ml, tempRouteLayer := none }
    else
      let id := s.nextId
      let elems := pts.map Elem.markerE ++
        (if 2 ≤ pts.length then [Elem.tempPolylineE pts] else [])
      { s with groups := s.groups ++ [(id, elems)],
               mapLayers := ml ++ [id],
               tempRouteLayer := some id,
               nextId := id + 1 }

/-- Model of `startDrawingRoute`: no-op without a map; otherwise set the drawing
flag, clear the point list, switch to the crosshair cursor, and subscribe
a fresh click handler, remembering it in the ref.  Note the source never
unsubscribes a previously subscribed handler here. -/
def startDrawingRoute (s : MapState) : MapState :=
  if !s.mapPresent then s
  else
    let h := s.nextId
    { s with isDrawingRoute := true, routePoints := [],
             cursor := "crosshair",
             clickHandler := some h,
             listeners := s.listeners ++ [h],
             nextId := h + 1 }

/-- The body of one subscribed `onMapClick` handler: append the clicked
point to the route points and rebuild the temporary preview. -/
def handleClickOnce (p : Pt) (s : MapState) : MapState :=
  let newPoints := s.routePoints ++ [p]
  updateTempRoute newPoints { s with routePoints := newPoints }

/-- A map click event: every subscribed listener fires once, in
subscription order (each listener created by `startDrawingRoute` runs the
same handler body). -/
def clickMap (p : Pt) (s : MapState) : MapState :=
  s.listeners.foldl (fun st _ => handleClickOnce p st) s

/-- Model of `finishDrawingRoute`: with no map or fewer than two points, return
null and change nothing; otherwise clean up the drawing machinery, build
the permanent polyline layer via `addPolyline`, add it to the map, fit
bounds, and reset the session. -/
def finishDrawingRoute (dist : Pt → Pt → ℚ) (s : MapState) : Option ℕ × MapState :=
  if !s.mapPresent || s.routePoints.length < 2 then (none, s)
  else
    let s1 := cleanupRouteDrawing s
    let idAndS := addPolyline dist s.routePoints s1
    let s3 := { idAndS.2 with mapLayers := idAndS.2.mapLayers ++ [idAndS.1] }
    (some idAndS.1, { s3 with isDrawingRoute := false, routePoints := [] })

/-- The elements of the feature group with the given id. -/
def groupElems (s : MapState) (id : ℕ) : List Elem :=
  (s.groups.lookup id).getD []

/-- Is this element a distance label? -/
def isDistLabel : Elem → Bool
  | .distLabelE _ => true
  | _ => false

/-- Element count of a feature group. -/
def elemCount (s : MapState) (id : ℕ) : ℕ := (groupElems s id).length

/-- Distance-label count of a feature group. -/
def labelCount (s : MapState) (id : ℕ) : ℕ :=
  ((groupElems s id).filter isDistLabel).length

/-- The state of a freshly mounted `useMap` hook once the map instance
exists: no layers, no session, no listeners. -/
def initState : MapState :=
  { mapPresent := true, mapLayers := [], layers := [], groups := [],
    isDrawingRoute := false, routePoints := [], tempRouteLayer := none,
    clickHandler := none, listeners := [], cursor := "", nextId := 0 }

/-- A concrete mid-session state: a drawing session is in progress with
one collected point, the temporary preview (group 0) and one unrelated
registered layer (group 1) are on the map, and handler 2 is subscribed. -/
def midSession : MapState :=
  { mapPresent := true, mapLayers := [0, 1], layers := [1],
    groups := [(0, [Elem.markerE ⟨0, 0⟩]), (1, [])],
    isDrawingRoute := true, routePoints := [⟨0, 0⟩], tempRouteLayer := some 0,
    clickHandler := some 2, listeners := [2], cursor := "crosshair", nextId := 3 }

theorem lineToCoord_match (l : List Char) :
    lineToCoord l =
      match (splitWsL l).map jsParseFloatL with
      | a :: b :: _ => if !a.isNaN && !b.isNaN then some ⟨a, b⟩ else none
      | _ => none := by
  unfold lineToCoord
  cases h : (splitWsL l).map jsParseFloatL with
  | nil => simp
  | cons a t =>
    cases t with
    | nil => simp
    | cons b t2 =>
      simp only [List.get?]
      cases ha : a.isNaN <;> cases hb : b.isNaN <;> simp [ha, hb]

theorem body_foldr_eq (ls : List (List Char)) :
    (ls.filter (fun l => decide (0 < l.length))).filterMap lineToCoord =
      ls.foldr
        (fun line acc =>
          if line.isEmpty then acc
          else
            match (splitWsL line).map jsParseFloatL with
            | a :: b :: _ => if !a.isNaN && !b.isNaN then ⟨a, b⟩ :: acc else acc
            | _ => acc) [] := by
  induction ls with
  | nil => rfl
  | cons l ls ih =>
    simp only [List.filter_cons, List.foldr_cons]
    by_cases hl : l = []
    · subst hl
      simp [ih]
    · have h1 : decide (0 < l.length) = true := by
        simp [List.length_pos, hl]
      have h2 : l.isEmpty = false := by
        simp [List.isEmpty_iff, hl]
      rw [h1, h2]
      simp only [if_true, Bool.false_eq_true, if_false, List.filterMap_cons]
      rw [lineToCoord_match l]
      cases hm : (splitWsL l).map jsParseFloatL with
      | nil => simpa using ih
      | cons a t =>
        cases t with
        | nil => simpa using ih
        | cons b t2 =>
          cases ha : a.isNaN <;> cases hb : b.isNaN <;> simp [ha, hb, ih]

theorem lt_two_cases (pts : List Pt) (h : pts.length < 2) :
    pts = [] ∨ ∃ p, pts = [p] := by
  cases pts with
  | nil => exact Or.inl rfl
  | cons p rest =>
    cases rest with
    | nil => exact Or.inr ⟨p, rfl⟩
    | cons q r2 => simp at h; omega

theorem distTooltips_length (dist : Pt → Pt → ℚ) (pts : List Pt) :
    (distTooltips dist pts).length = pts.length - 1 := by
  induction pts with
  | nil => rfl
  | cons p rest ih =>
    cases rest with
    | nil => rfl
    | cons q rest2 =>
      simp only [distTooltips, List.length_cons] at ih ⊢
      omega

theorem distTooltips_getD (dist : Pt → Pt → ℚ) (pts : List Pt) :
    ∀ i, i < pts.length - 1 →
      (distTooltips dist pts).getD i default =
        distLabel dist (pts.getD i default) (pts.getD (i + 1) default) := by
  induction pts with
  | nil => intro i h; simp at h
  | cons p rest ih =>
    cases rest with
    | nil => intro i h; simp at h
    | cons q rest2 =>
      intro i h
      cases i with
      | zero => simp [distTooltips]
      | succ j =>
        have hj : j < (q :: rest2).length - 1 := by
          simp only [List.length_cons] at h ⊢
          omega
        simpa [distTooltips] using ih j hj

/-- Claim C4: for a point list of length `n`, the distance annotator
produces exactly `n - 1` labels, one per consecutive pair in order; each
label's value is the engine distance of its pair (`dist` abstracts
`LatLng.distanceTo`, great-circle meters) divided by 1852, its anchor is
the arithmetic midpoint of the pair's latitudes and longitudes, and its
text is the value rendered with two decimal places plus a " NM" suffix;
for `n < 2` no label is produced. -/
theorem distTooltips_spec (dist : Pt → Pt → ℚ) (pts : List Pt) :
    (distTooltips dist pts).length = pts.length - 1 ∧
    (pts.length < 2 → distTooltips dist pts = []) ∧
    ∀ i, i < pts.length - 1 →
      ((distTooltips dist pts).getD i default).value =
          dist (pts.getD i default) (pts.getD (i + 1) default) / 1852 ∧
      ((distTooltips dist pts).getD i default).anchor =
          ⟨((pts.getD i default).lat + (pts.getD (i + 1) default).lat) / 2,
           ((pts.getD i default).lng + (pts.getD (i + 1) default).lng) / 2⟩ ∧
      ((distTooltips dist pts).getD i default).text =
          toFixed2 (dist (pts.getD i default) (pts.getD (i + 1) default) / 1852)
            ++ " NM" := by
  refine ⟨distTooltips_length dist pts, ?_, ?_⟩
  · intro h
    rcases lt_two_cases pts h with rfl | ⟨p, rfl⟩ <;> rfl
  · intro i h
    rw [distTooltips_getD dist pts i h]
    exact ⟨rfl, rfl, rfl⟩

/-- Witness for claim C4 at a concrete list: with a constant engine
distance of 1852 m between `(0,0)` and `(2,4)`, one label is produced,
valued 1 NM, anchored at `(1,2)`, rendered as `1.00 NM`. -/
theorem distTooltips_spec_witness :
    (distTooltips (fun _ _ => (1852 : ℚ)) [(⟨0, 0⟩ : Pt), ⟨2, 4⟩]).length = 1 ∧
    ((distTooltips (fun _ _ => (1852 : ℚ)) [(⟨0, 0⟩ : Pt), ⟨2, 4⟩]).getD 0 default).value = 1 ∧
    ((distTooltips (fun _ _ => (1852 : ℚ)) [(⟨0, 0⟩ : Pt), ⟨2, 4⟩]).getD 0 default).anchor
      = ⟨1, 2⟩ ∧
    ((distTooltips (fun _ _ => (1852 : ℚ)) [(⟨0, 0⟩ : Pt), ⟨2, 4⟩]).getD 0 default).text
      = "1.00 NM" := by
  have h := distTooltips_spec (fun _ _ => (1852 : ℚ)) [(⟨0, 0⟩ : Pt), ⟨2, 4⟩]
  have hv := (h.2.2 0 (by decide)).1
  have ha := (h.2.2 0 (by decide)).2.1
  have ht := (h.2.2 0 (by decide)).2.2
  refine ⟨by simpa using h.1, ?_, ?_, ?_⟩
  · rw [hv]; decide
  · rw [ha]; decide
  · rw [ht]; decide

/-- Claim C6 counterexample: on the input line `Infinity 0` the code
keeps the point `(+∞, 0)` — `parseFloat("Infinity")` is infinite but not
NaN — while the claim, which keeps only lines yielding two finite
numbers, discards it. -/
theorem parseBody_keeps_infinite_cex :
    specParseBody "Infinity 0" = [] ∧
    parseBody "Infinity 0" = [⟨.inf true, .fin 0⟩] ∧
    parseBody "Infinity 0" ≠ specParseBody "Infinity 0" := by decide

/-- Claim C6 as amended: body parsing splits on line breaks, trims,
discards blank lines, and keeps a line exactly when its first two
whitespace-separated tokens parse to non-NaN numbers (a token parsing to
±Infinity is kept even though not finite), preserving file order; the
claim's concrete example holds as stated. -/
theorem parseBody_amended_correct :
    (∀ text : String, parseBody text = amendedBody text) ∧
    parseBody "-22.8 -43.0\n\nbad line\n-22.9 -43.1" =
      [⟨.fin (-228 / 10), .fin (-43)⟩, ⟨.fin (-229 / 10), .fin (-431 / 10)⟩] := by
  constructor
  · intro text
    unfold parseBody amendedBody
    exact body_foldr_eq _
  · decide

/-- Claim C7 counterexample: the stem of `1_2_3_4_5.jpg` has five
underscore tokens, so the claim says no bounds are extracted; the code
destructures only the first four tokens and emits bounds anyway. -/
theorem filenameBounds_five_tokens_cex :
    filenameBounds "1_2_3_4_5.jpg" =
      some ⟨⟨.fin 1, .fin 2⟩, ⟨.fin 3, .fin 4⟩⟩ ∧
    specBoundsStrict "1_2_3_4_5.jpg" = none := by decide

/-- Claim C7 as amended: bounds are emitted exactly when the stripped
stem, split on `_`, has at least four tokens whose first four all parse
to non-NaN numbers (extra tokens are ignored; an absent token behaves as
NaN); the claim's two concrete examples hold as stated. -/
theorem filenameBounds_amended_correct :
    (∀ fname : String, filenameBounds fname = amendedBounds fname) ∧
    filenameBounds "-23.0_-43.5_-22.5_-43.0.jpg" =
      some ⟨⟨.fin (-23), .fin (-435 / 10)⟩, ⟨.fin (-225 / 10), .fin (-43)⟩⟩ ∧
    filenameBounds "chart.jpg" = none := by
  refine ⟨?_, by decide, by decide⟩
  intro fname
  unfold filenameBounds amendedBounds
  cases h : ((stripExt fname.data).splitOn '_').map jsParseFloatL with
  | nil => simp
  | cons a t =>
    cases t with
    | nil => simp
    | cons b t2 =>
      cases t2 with
      | nil => simp
      | cons c t3 =>
        cases t3 with
        | nil => simp
        | cons d t4 => simp

/-- Claim C9: when reading the uploaded file's text fails, the handler's
`catch` branch returns an empty point list (the model is total, so no
exception escapes); the filename-bounds side effect is unaffected. -/
theorem handleInputFile_read_failure_empty (hasOverlay : Bool) (fname : String) :
    (handleInputFile hasOverlay fname none).2 = [] := rfl

/-- Claim C3 evidence (code bug): starting twice from a fresh map leaves
two click listeners subscribed, and the next click appends its point
twice; even a subsequent cancel removes only the listener remembered in
the ref, leaving one still subscribed. -/
theorem double_start_two_listeners :
    (clickMap ⟨1, 2⟩ (startDrawingRoute (startDrawingRoute initState))).listeners.length
      = 2 ∧
    (clickMap ⟨1, 2⟩ (startDrawingRoute (startDrawingRoute initState))).routePoints
      = [⟨1, 2⟩, ⟨1, 2⟩] ∧
    (cancelDrawingRoute
        (clickMap ⟨1, 2⟩ (startDrawingRoute (startDrawingRoute initState)))).listeners
      = [0] := by decide

/-- Claim C5: calling finish with fewer than two accumulated points
returns no layer and leaves the whole state — drawing flag, points,
click listener, preview layer — exactly as it was. -/
theorem finish_too_few_points_noop (dist : Pt → Pt → ℚ) (s : MapState)
    (hlen : s.routePoints.length < 2) :
    finishDrawingRoute dist s = (none, s) := by
  unfold finishDrawingRoute
  have hc : decide (s.routePoints.length < 2) = true := by simpa using hlen
  rw [hc]
  simp

/-- Witness for claim C5 at the concrete mid-session state (one point
collected): finish returns null and the state is untouched. -/
theorem finish_too_few_points_noop_witness :
    finishDrawingRoute (fun _ _ => 0) midSession = (none, midSession) :=
  finish_too_few_points_noop (fun _ _ => 0) midSession (by decide)

/-- Claim C2 counterexample: in the concrete mid-session state, layer 1
is shown but is not the session's preview layer (the preview is layer 0),
yet hiding layer 1 with `toggleFromMap` cancels the session — the claim
says the session should stay in `Drawing` with its points intact. -/
theorem toggle_cancels_other_layer_cex :
    midSession.isDrawingRoute = true ∧
    midSession.tempRouteLayer = some 0 ∧
    (1 : ℕ) ∈ midSession.mapLayers ∧
    (toggleFromMap 1 midSession).isDrawingRoute = false ∧
    (toggleFromMap 1 midSession).routePoints = [] := by decide

/-- Claim C2 as amended: while a route-drawing session is in progress,
hiding any currently-shown layer through `toggleFromMap` cancels the
session (state `Idle`, points cleared), whether or not the hidden layer
is the session's temporary preview. -/
theorem toggle_hide_always_cancels (s : MapState) (layer : ℕ)
    (hm : s.mapPresent = true) (hshown : layer ∈ s.mapLayers)
    (hdraw : s.isDrawingRoute = true) :
    (toggleFromMap layer s).isDrawingRoute = false ∧
    (toggleFromMap layer s).routePoints = [] := by
  unfold toggleFromMap
  simp [hm, hshown, hdraw, cancelDrawingRoute, cleanupRouteDrawing]

/-- Witness for claim C2 as amended, at the concrete mid-session state
hiding the preview layer itself. -/
theorem toggle_hide_always_cancels_witness :
    (toggleFromMap 0 midSession).isDrawingRoute = false ∧
    (toggleFromMap 0 midSession).routePoints = [] :=
  toggle_hide_always_cancels midSession 0 rfl (by decide) rfl

theorem toggleFromMap_mapPresent (layer : ℕ) (s : MapState) :
    (toggleFromMap layer s).mapPresent = s.mapPresent := by
  by_cases h1 : s.mapPresent
  · by_cases h2 : layer ∈ s.mapLayers
    · by_cases h3 : s.isDrawingRoute
      · simp [toggleFromMap, h1, h2, h3, cancelDrawingRoute, cleanupRouteDrawing]
      · simp [toggleFromMap, h1, h2, h3]
    · simp [toggleFromMap, h1, h2]
  · simp only [Bool.not_eq_true] at h1
    simp [toggleFromMap, h1]

theorem toggle_of_mem_not_mem (s : MapState) (layer : ℕ) (hm : s.mapPresent = true)
    (hnd : s.mapLayers.Nodup) (hin : layer ∈ s.mapLayers) :
    layer ∉ (toggleFromMap layer s).mapLayers := by
  by_cases h3 : s.isDrawingRoute
  · cases ht : s.tempRouteLayer with
    | none =>
      simp only [toggleFromMap, hm, hin, h3, cancelDrawingRoute, cleanupRouteDrawing, ht]
      simp [hnd.not_mem_erase]
    | some t =>
      simp only [toggleFromMap, hm, hin, h3, cancelDrawingRoute, cleanupRouteDrawing, ht]
      simp only [Bool.not_true, Bool.false_eq_true, if_false, ite_true, if_true]
      intro hmem
      exact hnd.not_mem_erase (List.mem_of_mem_erase hmem)
  · simp only [toggleFromMap, hm, hin, h3]
    simp [hnd.not_mem_erase]

theorem toggle_of_not_mem_mem (s : MapState) (layer : ℕ) (hm : s.mapPresent = true)
    (hnin : layer ∉ s.mapLayers) :
    layer ∈ (toggleFromMap layer s).mapLayers := by
  simp [toggleFromMap, hm, hnin]

theorem toggle_hide_layers (s : MapState) (layer : ℕ) (hm : s.mapPresent = true)
    (hin : layer ∈ s.mapLayers) :
    (toggleFromMap layer s).layers = s.layers.filter (fun l => l != layer) := by
  by_cases h3 : s.isDrawingRoute <;>
    simp [toggleFromMap, hm, hin, h3, cancelDrawingRoute, cleanupRouteDrawing]

theorem toggle_show_frame (s : MapState) (layer : ℕ) (hm : s.mapPresent = true)
    (hnin : layer ∉ s.mapLayers) :
    toggleFromMap layer s = { s with mapLayers := s.mapLayers ++ [layer] } := by
  simp [toggleFromMap, hm, hnin]

/-- Claim C8: for a layer known to the registry (with the reachable-state
invariant that the map's layer list has no duplicates), two consecutive
`toggleFromMap` calls restore the layer's visibility on the map: shown
stays shown, hidden stays hidden. -/
theorem toggle_involutive_visibility (s : MapState) (layer : ℕ)
    (hm : s.mapPresent = true) (hreg : layer ∈ s.layers)
    (hnd : s.mapLayers.Nodup) :
    (layer ∈ (toggleFromMap layer (toggleFromMap layer s)).mapLayers ↔
      layer ∈ s.mapLayers) := by
  by_cases hin : layer ∈ s.mapLayers
  · have h1 : layer ∉ (toggleFromMap layer s).mapLayers :=
      toggle_of_mem_not_mem s layer hm hnd hin
    have hp : (toggleFromMap layer s).mapPresent = true := by
      rw [toggleFromMap_mapPresent]; exact hm
    have h2 : layer ∈ (toggleFromMap layer (toggleFromMap layer s)).mapLayers :=
      toggle_of_not_mem_mem _ layer hp h1
    simp [h2, hin]
  · have ht1 : toggleFromMap layer s = { s with mapLayers := s.mapLayers ++ [layer] } :=
      toggle_show_frame s layer hm hin
    have hnd1 : ({ s with mapLayers := s.mapLayers ++ [layer] } : MapState).mapLayers.Nodup := by
      simp [List.nodup_append, hnd, hin]
    have h2 : layer ∉
        (toggleFromMap layer ({ s with mapLayers := s.mapLayers ++ [layer] } : MapState)).mapLayers :=
      toggle_of_mem_not_mem _ layer (by simpa using hm) hnd1 (by simp)
    rw [ht1]
    simp [h2, hin]

/-- Witness for claim C8 at the concrete mid-session state: layer 1 is
registered and shown; after two toggles it is shown again. -/
theorem toggle_involutive_visibility_witness :
    (1 ∈ (toggleFromMap 1 (toggleFromMap 1 midSession)).mapLayers ↔
      1 ∈ midSession.mapLayers) :=
  toggle_involutive_visibility midSession 1 rfl (by decide) (by decide)

/-- Claim C10: the hide branch of `toggleFromMap` removes the layer from
the `layers` registry list (and changes no other entry — the new list is
exactly the old one filtered); the show branch leaves the registry list
untouched; hence toggling a registered shown layer off and on leaves it
visible on the map while it is absent from the registry list. -/
theorem toggle_registry_frame (s : MapState) (layer : ℕ)
    (hm : s.mapPresent = true) (hnd : s.mapLayers.Nodup) :
    (layer ∈ s.mapLayers →
      (toggleFromMap layer s).layers = s.layers.filter (fun l => l != layer)) ∧
    (layer ∉ s.mapLayers → (toggleFromMap layer s).layers = s.layers) ∧
    (layer ∈ s.mapLayers → layer ∈ s.layers →
      layer ∈ (toggleFromMap layer (toggleFromMap layer s)).mapLayers ∧
      layer ∉ (toggleFromMap layer (toggleFromMap layer s)).layers ∧
      (toggleFromMap layer (toggleFromMap layer s)).layers
        = s.layers.filter (fun l => l != layer)) := by
  refine ⟨fun hin => toggle_hide_layers s layer hm hin,
          fun hnin => by rw [toggle_show_frame s layer hm hnin],
          fun hin _ => ?_⟩
  have h1 : layer ∉ (toggleFromMap layer s).mapLayers :=
    toggle_of_mem_not_mem s layer hm hnd hin
  have hp : (toggleFromMap layer s).mapPresent = true := by
    rw [toggleFromMap_mapPresent]; exact hm
  have hshow : toggleFromMap layer (toggleFromMap layer s) =
      { toggleFromMap layer s with
          mapLayers := (toggleFromMap layer s).mapLayers ++ [layer] } :=
    toggle_show_frame _ layer hp h1
  refine ⟨toggle_of_not_mem_mem _ layer hp h1, ?_, ?_⟩
  · rw [hshow]
    simp only []
    rw [toggle_hide_layers s layer hm hin]
    simp [List.mem_filter]
  · rw [hshow]
    simp only []
    exact toggle_hide_layers s layer hm hin

/-- Witness for claim C10 at the concrete mid-session state: layer 1 is
registered and shown; after hide-then-show it is back on the map but gone
from the registry list. -/
theorem toggle_registry_frame_witness :
    1 ∈ (toggleFromMap 1 (toggleFromMap 1 midSession)).mapLayers ∧
    1 ∉ (toggleFromMap 1 (toggleFromMap 1 midSession)).layers ∧
    (toggleFromMap 1 (toggleFromMap 1 midSession)).layers
      = midSession.layers.filter (fun l => l != 1) :=
  (toggle_registry_frame midSession 1 rfl (by decide)).2.2 (by decide) (by decide)

theorem lookup_append_of_ne (id : ℕ) :
    ∀ (gs rest : List (ℕ × List Elem)), (∀ g ∈ gs, g.1 ≠ id) →
      List.lookup id (gs ++ rest) = List.lookup id rest
  | [], _, _ => rfl
  | ⟨k, v⟩ :: t, rest, h => by
    have hne : (id == k) = false := by
      simpa using (h ⟨k, v⟩ (by simp)).symm
    rw [List.cons_append, List.lookup_cons, hne]
    exact lookup_append_of_ne id t rest (fun g hg => h g (by simp [hg]))

theorem groupAppend_append (id : ℕ) (es : List Elem)
    (gs1 gs2 : List (ℕ × List Elem)) :
    groupAppend id es (gs1 ++ gs2) = groupAppend id es gs1 ++ groupAppend id es gs2 :=
  List.map_append _ _ _

theorem groupAppend_of_ne (id : ℕ) (es : List Elem) :
    ∀ gs : List (ℕ × List Elem), (∀ g ∈ gs, g.1 ≠ id) → groupAppend id es gs = gs
  | [], _ => rfl
  | g :: t, h => by
    have h1 : ¬ g.1 = id := h g (by simp)
    have h2 := groupAppend_of_ne id es t (fun g' h' => h g' (by simp [h']))
    simp only [groupAppend, List.map_cons] at h2 ⊢
    rw [if_neg h1, h2]

theorem groupAppend_single_hit (id : ℕ) (es l : List Elem) :
    groupAppend id es [(id, l)] = [(id, l ++ es)] := by
  simp [groupAppend]

theorem addPolyline_spec (dist : Pt → Pt → ℚ) (pts : List Pt) (s : MapState)
    (h : ∀ g ∈ s.groups, g.1 ≠ s.nextId) :
    (addPolyline dist pts s).1 = s.nextId ∧
    groupElems (addPolyline dist pts s).2 (addPolyline dist pts s).1 =
      Elem.polylineE pts :: (distTooltips dist pts).map Elem.distLabelE := by
  refine ⟨rfl, ?_⟩
  show (List.lookup s.nextId
      (groupAppend s.nextId ((distTooltips dist pts).map Elem.distLabelE)
        (s.groups ++ [(s.nextId, [Elem.polylineE pts])]))).getD [] = _
  rw [groupAppend_append, groupAppend_of_ne _ _ _ h, groupAppend_single_hit,
    lookup_append_of_ne _ _ _ h, List.lookup_cons]
  simp

theorem finish_group (dist : Pt → Pt → ℚ) (s : MapState) (hm : s.mapPresent = true)
    (hlen : ¬ s.routePoints.length < 2)
    (hf : ∀ g ∈ s.groups, g.1 ≠ s.nextId) :
    ∃ sf, finishDrawingRoute dist s = (some s.nextId, sf) ∧
      groupElems sf s.nextId =
        Elem.polylineE s.routePoints ::
          (distTooltips dist s.routePoints).map Elem.distLabelE ∧
      sf.isDrawingRoute = false ∧ sf.routePoints = [] := by
  have hc : (!s.mapPresent || decide (s.routePoints.length < 2)) = false := by
    simp [hm, hlen]
  obtain ⟨hid, hge⟩ := addPolyline_spec dist s.routePoints (cleanupRouteDrawing s) hf
  refine ⟨{ (addPolyline dist s.routePoints (cleanupRouteDrawing s)).2 with
      mapLayers := (addPolyline dist s.routePoints (cleanupRouteDrawing s)).2.mapLayers
        ++ [(addPolyline dist s.routePoints (cleanupRouteDrawing s)).1],
      isDrawingRoute := false, routePoints := [] }, ?_, ?_, rfl, rfl⟩
  · have hfin : finishDrawingRoute dist s =
        (some (addPolyline dist s.routePoints (cleanupRouteDrawing s)).1,
          { (addPolyline dist s.routePoints (cleanupRouteDrawing s)).2 with
              mapLayers := (addPolyline dist s.routePoints (cleanupRouteDrawing s)).2.mapLayers
                ++ [(addPolyline dist s.routePoints (cleanupRouteDrawing s)).1],
              isDrawingRoute := false, routePoints := [] }) := by
      show (if (!s.mapPresent || decide (s.routePoints.length < 2)) = true then _ else _) = _
      rw [hc]
      rfl
    rw [hfin, hid]
    rfl
  · show (List.lookup s.nextId
        (addPolyline dist s.routePoints (cleanupRouteDrawing s)).2.groups).getD [] = _
    have h2 := hge
    rw [hid] at h2
    exact h2

theorem finish_vs_direct (dist : Pt → Pt → ℚ) (p1 p2 : Pt) (sC s0 : MapState)
    (hmC : sC.mapPresent = true) (hrpC : sC.routePoints = [p1, p2])
    (hfC : ∀ g ∈ sC.groups, g.1 ≠ sC.nextId)
    (hf0 : ∀ g ∈ s0.groups, g.1 ≠ s0.nextId) :
    ∃ id sf, finishDrawingRoute dist sC = (some id, sf) ∧
      elemCount sf id =
        elemCount (addPolyline dist [p1, p2] s0).2 (addPolyline dist [p1, p2] s0).1 ∧
      labelCount sf id =
        labelCount (addPolyline dist [p1, p2] s0).2 (addPolyline dist [p1, p2] s0).1 ∧
      sf.isDrawingRoute = false ∧ sf.routePoints = [] := by
  obtain ⟨hid0, hge0⟩ := addPolyline_spec dist [p1, p2] s0 hf0
  have hlen : ¬ sC.routePoints.length < 2 := by rw [hrpC]; simp
  obtain ⟨sf, hfin, hge, hdr, hrp⟩ := finish_group dist sC hmC hlen hfC
  rw [hrpC] at hge
  refine ⟨sC.nextId, sf, hfin, ?_, ?_, hdr, hrp⟩
  · unfold elemCount
    rw [hge, hge0]
  · unfold labelCount
    rw [hge, hge0]

/-- Claim C1: from any state with the map present, no click listener
subscribed, and fresh group ids (the reachable-state invariants of an
idle session), the sequence start, click `p1`, click `p2`, finish
produces a permanent layer whose element count and distance-label count
equal those of a direct `addPolyline [p1, p2]`, and leaves the session
`Idle` with an empty point list. -/
theorem finish_refines_addPolyline (dist : Pt → Pt → ℚ) (s : MapState) (p1 p2 : Pt)
    (hm : s.mapPresent = true) (hl : s.listeners = [])
    (hfresh : ∀ g ∈ s.groups, g.1 < s.nextId) :
    ∃ id sf,
      finishDrawingRoute dist (clickMap p2 (clickMap p1 (startDrawingRoute s)))
        = (some id, sf) ∧
      elemCount sf id =
        elemCount (addPolyline dist [p1, p2] s).2 (addPolyline dist [p1, p2] s).1 ∧
      labelCount sf id =
        labelCount (addPolyline dist [p1, p2] s).2 (addPolyline dist [p1, p2] s).1 ∧
      sf.isDrawingRoute = false ∧ sf.routePoints = [] := by
  obtain ⟨mp, ml, ly, gs, dr, rp, tl, ch, ls, cu, ni⟩ := s
  replace hm : mp = true := hm
  replace hl : ls = [] := hl
  replace hfresh : ∀ g ∈ gs, g.1 < ni := hfresh
  subst hm hl
  have hd : ∀ g ∈ gs, g.1 ≠ ni := fun g hg => Nat.ne_of_lt (hfresh g hg)
  cases tl with
  | none =>
    have hC : clickMap p2 (clickMap p1 (startDrawingRoute
        ⟨true, ml, ly, gs, dr, rp, none, ch, [], cu, ni⟩)) =
        ⟨true, (ml ++ [ni + 1]).erase (ni + 1) ++ [ni + 1 + 1], ly,
          gs ++ [(ni + 1, [Elem.markerE p1]),
            (ni + 1 + 1, [Elem.markerE p1, Elem.markerE p2, Elem.tempPolylineE [p1, p2]])],
          true, [p1, p2], some (ni + 1 + 1), some ni, [ni], "crosshair",
          ni + 1 + 1 + 1⟩ := by
      simp [clickMap, startDrawingRoute, handleClickOnce, updateTempRoute]
    rw [hC]
    refine finish_vs_direct dist p1 p2 _ _ rfl rfl ?_ hd
    intro g hg
    rcases List.mem_append.1 hg with h | h
    · have := hfresh g h
      simp only []
      omega
    · simp only [List.mem_cons, List.mem_singleton] at h
      rcases h with rfl | rfl | h
      · simp only []
        omega
      · simp only []
        omega
      · simp at h
  | some t =>
    have hC : clickMap p2 (clickMap p1 (startDrawingRoute
        ⟨true, ml, ly, gs, dr, rp, some t, ch, [], cu, ni⟩)) =
        ⟨true, (ml.erase t ++ [ni + 1]).erase (ni + 1) ++ [ni + 1 + 1], ly,
          gs ++ [(ni + 1, [Elem.markerE p1]),
            (ni + 1 + 1, [Elem.markerE p1, Elem.markerE p2, Elem.tempPolylineE [p1, p2]])],
          true, [p1, p2], some (ni + 1 + 1), some ni, [ni], "crosshair",
          ni + 1 + 1 + 1⟩ := by
      simp [clickMap, startDrawingRoute, handleClickOnce, updateTempRoute]
    rw [hC]
    refine finish_vs_direct dist p1 p2 _ _ rfl rfl ?_ hd
    intro g hg
    rcases List.mem_append.1 hg with h | h
    · have := hfresh g h
      simp only []
      omega
    · simp only [List.mem_cons, List.mem_singleton] at h
      rcases h with rfl | rfl | h
      · simp only []
        omega
      · simp only []
        omega
      · simp at h

/-- Witness for claim C1 at the fresh initial state with concrete points:
the drawn route layer and the direct polyline layer have the same element
and label counts, and the session ends idle and empty. -/
theorem finish_refines_addPolyline_witness :
    ∃ id sf,
      finishDrawingRoute (fun _ _ => 1852)
          (clickMap ⟨2, 4⟩ (clickMap ⟨0, 0⟩ (startDrawingRoute initState)))
        = (some id, sf) ∧
      elemCount sf id =
        elemCount (addPolyline (fun _ _ => 1852) [⟨0, 0⟩, ⟨2, 4⟩] initState).2
          (addPolyline (fun _ _ => 1852) [⟨0, 0⟩, ⟨2, 4⟩] initState).1 ∧
      labelCount sf id =
        labelCount (addPolyline (fun _ _ => 1852) [⟨0, 0⟩, ⟨2, 4⟩] initState).2
          (addPolyline (fun _ _ => 1852) [⟨0, 0⟩, ⟨2, 4⟩] initState).1 ∧
      sf.isDrawingRoute = false ∧ sf.routePoints = [] :=
  finish_refines_addPolyline (fun _ _ => 1852) initState ⟨0, 0⟩ ⟨2, 4⟩ rfl rfl
    (by simp [initState])
